import Mathlib

/-!
Formal model of the SOLID-EQ dual-deck audio engine.

The repository ships two engine variants in `src/src/audio/AudioEngine.ts`:
the `AudioEngine` class (a module-level singleton driving one deck) and the
React `AudioEngineProvider` context (two decks A/B with a crossfader).  Both
are embedded here: control-plane state is modelled over `ℚ` (JS numbers used
only through `+ - * / min max floor` and comparisons), while the DSP mapping
laws (`Math.pow`, `Math.cos`, `Math.sin`) are modelled over `ℝ`.
-/

namespace SolidEQ

/-- Filter kind of the DJ biquad filter node (`lowpass` / `highpass`). -/
inductive FilterKind
  | lowpass
  | highpass
deriving DecidableEq, Repr

/-- Scene tag, `A` or `B`. -/
inductive SceneTag
  | A
  | B
deriving DecidableEq, Repr

/-- The five DJ scene parameters (`DJSceneParams` in `AudioEngine.ts`). -/
structure DJSceneParams where
  playbackRate : ℚ
  djFilterValue : ℚ
  echoMix : ℚ
  echoTime : ℚ
  echoFeedback : ℚ
deriving DecidableEq, Repr

/-- Default DJ scene (`DEFAULT_DJ_SCENE` in `AudioEngine.ts`). -/
def DEFAULT_DJ_SCENE : DJSceneParams :=
  { playbackRate := 1
    djFilterValue := 0
    echoMix := 0
    echoTime := 3 / 10
    echoFeedback := 2 / 5 }

/-- Control-plane state of the `AudioEngine` class (the fields of its
`state` object touched by the operations modelled here). -/
structure AudioEngineState where
  isPlaying : Bool
  currentTime : ℚ
  duration : ℚ
  volume : ℚ
  playbackRate : ℚ
  djFilterValue : ℚ
  echoMix : ℚ
  echoTime : ℚ
  echoFeedback : ℚ
  loopIn : Option ℚ
  loopOut : Option ℚ
  loopEnabled : Bool
  djSceneA : DJSceneParams
  djSceneB : DJSceneParams
  activeDjScene : SceneTag
  isMorphing : Bool
  morphProgress : ℚ
  isRecording : Bool
  recordingDuration : ℚ
deriving DecidableEq, Repr

/-- Initial `state` of the `AudioEngine` class constructor. -/
def initialEngineState : AudioEngineState :=
  { isPlaying := false
    currentTime := 0
    duration := 0
    volume := 1
    playbackRate := 1
    djFilterValue := 0
    echoMix := 0
    echoTime := 3 / 10
    echoFeedback := 2 / 5
    loopIn := none
    loopOut := none
    loopEnabled := false
    djSceneA := DEFAULT_DJ_SCENE
    djSceneB := DEFAULT_DJ_SCENE
    activeDjScene := SceneTag.A
    isMorphing := false
    morphProgress := 0
    isRecording := false
    recordingDuration := 0 }

/-- Embedding of `AudioEngine.setPlaybackRate`: the class stores the rate
verbatim (no clamping is performed in this variant). -/
def setPlaybackRate (rate : ℚ) (s : AudioEngineState) : AudioEngineState :=
  { s with playbackRate := rate }

/-- Embedding of the state write of `AudioEngine.setDjFilterValue`; the
filter-node frequency it derives from the value is `setDjFilterFreq` below. -/
def setDjFilterValue (value : ℚ) (s : AudioEngineState) : AudioEngineState :=
  { s with djFilterValue := value }

/-- Embedding of `AudioEngine.setEchoMix` (state write). -/
def setEchoMix (mix : ℚ) (s : AudioEngineState) : AudioEngineState :=
  { s with echoMix := mix }

/-- Embedding of `AudioEngine.setEchoTime` (state write). -/
def setEchoTime (time : ℚ) (s : AudioEngineState) : AudioEngineState :=
  { s with echoTime := time }

/-- Embedding of `AudioEngine.setEchoFeedback` (state write). -/
def setEchoFeedback (feedback : ℚ) (s : AudioEngineState) : AudioEngineState :=
  { s with echoFeedback := feedback }

/-- Embedding of `AudioEngine.toggleLoop`: the flag is flipped
unconditionally. -/
def toggleLoop (s : AudioEngineState) : AudioEngineState :=
  { s with loopEnabled := !s.loopEnabled }

/-- Embedding of `AudioEngine.setLoopIn`: captures `currentTime`. -/
def setLoopIn (s : AudioEngineState) : AudioEngineState :=
  { s with loopIn := some s.currentTime }

/-- Embedding of `AudioEngine.setLoopOut`: captures `currentTime`. -/
def setLoopOut (s : AudioEngineState) : AudioEngineState :=
  { s with loopOut := some s.currentTime }

/-- Embedding of `AudioEngine.getCurrentDjParams`. -/
def getCurrentDjParams (s : AudioEngineState) : DJSceneParams :=
  { playbackRate := s.playbackRate
    djFilterValue := s.djFilterValue
    echoMix := s.echoMix
    echoTime := s.echoTime
    echoFeedback := s.echoFeedback }

/-- Embedding of `AudioEngine.applyDjParams`: calls the five setters in
source order. -/
def applyDjParams (p : DJSceneParams) (s : AudioEngineState) : AudioEngineState :=
  setEchoFeedback p.echoFeedback
    (setEchoTime p.echoTime
      (setEchoMix p.echoMix
        (setDjFilterValue p.djFilterValue
          (setPlaybackRate p.playbackRate s))))

/-- Embedding of `AudioEngine.storeDjSceneA`. -/
def storeDjSceneA (s : AudioEngineState) : AudioEngineState :=
  { s with djSceneA := getCurrentDjParams s }

/-- Embedding of `AudioEngine.storeDjSceneB`. -/
def storeDjSceneB (s : AudioEngineState) : AudioEngineState :=
  { s with djSceneB := getCurrentDjParams s }

/-- Embedding of `AudioEngine.loadDjSceneA`. -/
def loadDjSceneA (s : AudioEngineState) : AudioEngineState :=
  { applyDjParams s.djSceneA s with activeDjScene := SceneTag.A }

/-- Embedding of `AudioEngine.loadDjSceneB`. -/
def loadDjSceneB (s : AudioEngineState) : AudioEngineState :=
  { applyDjParams s.djSceneB s with activeDjScene := SceneTag.B }

/-- Applying a parameter snapshot then reading the current parameters gives
back the snapshot: the five class setters store their argument verbatim. -/
theorem getCurrentDjParams_applyDjParams (p : DJSceneParams) (s : AudioEngineState) :
    getCurrentDjParams (applyDjParams p s) = p := by
  cases p
  rfl

/-- C8: the claim says `toggleLoop` flips `loopEnabled` only when both loop
markers are set; the code flips unconditionally, shown here on the initial
state whose markers are both `null`. -/
theorem toggleLoop_flips_with_null_markers :
    initialEngineState.loopIn = none ∧
    initialEngineState.loopOut = none ∧
    initialEngineState.loopEnabled = false ∧
    (toggleLoop initialEngineState).loopEnabled = true := by
  refine ⟨rfl, rfl, rfl, rfl⟩

/-- C8 (amended): `toggleLoop` always flips `loopEnabled`, regardless of the
loop markers, and leaves both markers unchanged. -/
theorem toggleLoop_always_flips (s : AudioEngineState) :
    (toggleLoop s).loopEnabled = !s.loopEnabled ∧
    (toggleLoop s).loopIn = s.loopIn ∧
    (toggleLoop s).loopOut = s.loopOut :=
  ⟨rfl, rfl, rfl⟩

/-- C9: the claim says `setPlaybackRate` clamps to the allowed range
(e.g. `[0.5, 2.0]`); the `AudioEngine` class stores the raw rate, shown here
at input `5`, which lands outside the range. -/
theorem setPlaybackRate_does_not_clamp :
    (setPlaybackRate 5 initialEngineState).playbackRate = 5 ∧
    ¬ ((5 : ℚ) ≤ 2) := by
  exact ⟨rfl, by norm_num⟩

/-- C10: storing the current DJ parameters into scene A and immediately
loading scene A leaves all five DJ parameters unchanged and sets
`activeDjScene` to `A`; symmetrically for scene B. -/
theorem storeLoadDjScene_roundTrip (s : AudioEngineState) :
    getCurrentDjParams (loadDjSceneA (storeDjSceneA s)) = getCurrentDjParams s ∧
    (loadDjSceneA (storeDjSceneA s)).activeDjScene = SceneTag.A ∧
    getCurrentDjParams (loadDjSceneB (storeDjSceneB s)) = getCurrentDjParams s ∧
    (loadDjSceneB (storeDjSceneB s)).activeDjScene = SceneTag.B := by
  refine ⟨?_, ?_, ?_, ?_⟩ <;>
    simp [loadDjSceneA, loadDjSceneB, storeDjSceneA, storeDjSceneB, applyDjParams,
      getCurrentDjParams, setPlaybackRate, setDjFilterValue, setEchoMix, setEchoTime,
      setEchoFeedback]

/-- Per-deck state of the `AudioEngineProvider` context (`DeckState` there,
restricted to the fields the modelled operations touch).  Hot cues are the
four nullable slot times. -/
structure DeckState where
  isPlaying : Bool
  currentTime : ℚ
  duration : ℚ
  hotCues : Fin 4 → Option ℚ
  loopIn : Option ℚ
  loopOut : Option ℚ
  loopEnabled : Bool
  playbackRate : ℚ

/-- Default deck state (`defaultDeckState` in the provider). -/
def defaultDeckState : DeckState :=
  { isPlaying := false
    currentTime := 0
    duration := 0
    hotCues := fun _ => none
    loopIn := none
    loopOut := none
    loopEnabled := false
    playbackRate := 1 }

/-- Embedding of the provider's `setPlaybackRateA`/`setPlaybackRateB`: the
rate is clamped to `[0.5, 2]` before being stored and written through. -/
def setPlaybackRateA (rate : ℚ) (d : DeckState) : DeckState :=
  { d with playbackRate := max (1 / 2) (min 2 rate) }

/-- C9 (amended): the provider deck setters `setPlaybackRateA`/`B` publish
`max 0.5 (min 2 rate)`, which always lies in `[0.5, 2]`; the `AudioEngine`
class variant `setPlaybackRate` stores the raw rate unclamped (see the
counterexample on the class embedding). -/
theorem setPlaybackRateA_clamps (rate : ℚ) (d : DeckState) :
    (setPlaybackRateA rate d).playbackRate = max (1 / 2) (min 2 rate) ∧
    1 / 2 ≤ (setPlaybackRateA rate d).playbackRate ∧
    (setPlaybackRateA rate d).playbackRate ≤ 2 := by
  refine ⟨rfl, le_max_left _ _, ?_⟩
  simp only [setPlaybackRateA]
  exact max_le (by norm_num) (min_le_left _ _)

/-- Embedding of the provider's `seekA`/`seekB` clamp: the written playback
position is the requested time clamped to `[0, duration]`. -/
def seekClamp (time duration : ℚ) : ℚ :=
  max 0 (min time duration)

/-- Embedding of the provider's `setHotCueA`/`setHotCueB`: stores the given
time at the slot, overwriting any prior cue. -/
def setHotCueA (index : Fin 4) (time : ℚ) (d : DeckState) : DeckState :=
  { d with hotCues := Function.update d.hotCues index (some time) }

/-- Embedding of the provider's `triggerHotCueA`/`triggerHotCueB`: given the
current playback position, returns the new position together with the boolean
result (`cue !== null`).  A set slot seeks to its time (through the `seekA`
clamp); an unset slot leaves the position alone and reports `false`. -/
def triggerHotCueA (index : Fin 4) (d : DeckState) (pos : ℚ) : ℚ × Bool :=
  match d.hotCues index with
  | some cue => (seekClamp cue d.duration, true)
  | none => (pos, false)

/-- C7: a hot-cue slot set at time `T ∈ [0, duration]` is restored exactly by
`triggerHotCue`, which reports `true`; triggering an unset slot reports
`false` and leaves the playback position unchanged (the operation is total,
it never throws). -/
theorem triggerHotCue_spec (index : Fin 4) (time pos : ℚ) (d : DeckState)
    (h0 : 0 ≤ time) (h1 : time ≤ d.duration) :
    triggerHotCueA index (setHotCueA index time d) pos = (time, true) ∧
    (d.hotCues index = none → triggerHotCueA index d pos = (pos, false)) := by
  constructor
  · simp only [triggerHotCueA, setHotCueA, Function.update_same]
    have : seekClamp time d.duration = time := by
      simp only [seekClamp]
      rw [min_eq_left h1, max_eq_right h0]
    rw [this]
  · intro hnone
    simp only [triggerHotCueA, hnone]

/-- C7 witness: a concrete deck of duration `100`, cue stored at `t = 7`. -/
theorem triggerHotCue_spec_witness :
    (0 : ℚ) ≤ 7 ∧ (7 : ℚ) ≤ ({ defaultDeckState with duration := 100 } : DeckState).duration ∧
    (triggerHotCueA 0 (setHotCueA 0 7 { defaultDeckState with duration := 100 }) 55 = (7, true) ∧
      (({ defaultDeckState with duration := 100 } : DeckState).hotCues 0 = none →
        triggerHotCueA 0 { defaultDeckState with duration := 100 } 55 = (55, false))) :=
  ⟨by norm_num, by norm_num,
    triggerHotCue_spec 0 7 55 { defaultDeckState with duration := 100 }
      (by norm_num) (by norm_num)⟩

/-- MIN_LOOP_GAP from the provider (0.05 seconds). -/
def MIN_LOOP_GAP : ℚ := 1 / 20

/-- Embedding of the provider's `normalizeLoop`: when both markers are set,
clamps them to `[0, duration]` and pushes `loopOut` forward to
`min (loopIn + MIN_LOOP_GAP) duration` when the gap is too small; otherwise
returns the markers untouched. -/
def normalizeLoop (lIn lOut : Option ℚ) (duration : ℚ) : Option ℚ × Option ℚ :=
  match lIn, lOut with
  | some i, some o =>
      let inVal := max 0 (min i duration)
      let outVal := max 0 (min o duration)
      if outVal < inVal + MIN_LOOP_GAP then
        (some inVal, some (min (inVal + MIN_LOOP_GAP) duration))
      else
        (some inVal, some outVal)
  | _, _ => (lIn, lOut)

/-- Embedding of the provider's `setLoopInA`/`setLoopInB`. -/
def setLoopInA (time : ℚ) (d : DeckState) : DeckState :=
  let r := normalizeLoop (some time) d.loopOut d.duration
  { d with loopIn := r.1, loopOut := r.2 }

/-- Embedding of the provider's `setLoopOutA`/`setLoopOutB`. -/
def setLoopOutA (time : ℚ) (d : DeckState) : DeckState :=
  let r := normalizeLoop d.loopIn (some time) d.duration
  { d with loopIn := r.1, loopOut := r.2 }

/-- A call of the loop-marker API: `setLoopIn(t)` or `setLoopOut(t)`. -/
inductive LoopOp
  | setIn (t : ℚ)
  | setOut (t : ℚ)

/-- Run one loop-marker call on a deck. -/
def applyLoopOp (d : DeckState) (op : LoopOp) : DeckState :=
  match op with
  | LoopOp.setIn t => setLoopInA t d
  | LoopOp.setOut t => setLoopOutA t d

/-- Run a sequence of loop-marker calls on a deck. -/
def applyLoopOps (d : DeckState) (ops : List LoopOp) : DeckState :=
  ops.foldl applyLoopOp d

/-- The loop-window invariant actually maintained by `normalizeLoop`: both
markers clamped to `[0, duration]` and
`loopOut ≥ min (loopIn + MIN_LOOP_GAP) duration`. -/
def loopInvariant (d : DeckState) : Prop :=
  ∀ i o, d.loopIn = some i → d.loopOut = some o →
    0 ≤ i ∧ i ≤ d.duration ∧ 0 ≤ o ∧ o ≤ d.duration ∧
      min (i + MIN_LOOP_GAP) d.duration ≤ o

theorem normalizeLoop_post (i0 o0 duration : ℚ) (hdur : 0 ≤ duration)
    (i o : ℚ)
    (hi : (normalizeLoop (some i0) (some o0) duration).1 = some i)
    (ho : (normalizeLoop (some i0) (some o0) duration).2 = some o) :
    0 ≤ i ∧ i ≤ duration ∧ 0 ≤ o ∧ o ≤ duration ∧
      min (i + MIN_LOOP_GAP) duration ≤ o := by
  have hgap : (0 : ℚ) ≤ MIN_LOOP_GAP := by norm_num [MIN_LOOP_GAP]
  simp only [normalizeLoop] at hi ho
  by_cases hc : max 0 (min o0 duration) < max 0 (min i0 duration) + MIN_LOOP_GAP
  · rw [if_pos hc] at hi ho
    simp only [Option.some.injEq] at hi ho
    subst hi; subst ho
    have h0i : (0 : ℚ) ≤ max 0 (min i0 duration) := le_max_left _ _
    refine ⟨h0i, max_le hdur (min_le_right _ _), ?_, min_le_right _ _, le_of_eq rfl⟩
    exact le_min (add_nonneg h0i hgap) hdur
  · rw [if_neg hc] at hi ho
    simp only [Option.some.injEq] at hi ho
    subst hi; subst ho
    push_neg at hc
    have h0i : (0 : ℚ) ≤ max 0 (min i0 duration) := le_max_left _ _
    refine ⟨h0i, max_le hdur (min_le_right _ _), le_max_left _ _,
      max_le hdur (min_le_right _ _), le_trans (min_le_left _ _) hc⟩

theorem applyLoopOp_duration (d : DeckState) (op : LoopOp) :
    (applyLoopOp d op).duration = d.duration := by
  cases op <;> rfl

theorem applyLoopOp_invariant (d : DeckState) (op : LoopOp)
    (hdur : 0 ≤ d.duration) : loopInvariant (applyLoopOp d op) := by
  intro i o hi ho
  rw [applyLoopOp_duration]
  cases op with
  | setIn t =>
      simp only [applyLoopOp, setLoopInA] at hi ho
      cases hOut : d.loopOut with
      | none => rw [hOut] at ho; exact absurd ho (by simp [normalizeLoop])
      | some o0 =>
          rw [hOut] at hi ho
          exact normalizeLoop_post t o0 d.duration hdur i o hi ho
  | setOut t =>
      simp only [applyLoopOp, setLoopOutA] at hi ho
      cases hIn : d.loopIn with
      | none => rw [hIn] at hi; exact absurd hi (by simp [normalizeLoop])
      | some i0 =>
          rw [hIn] at hi ho
          exact normalizeLoop_post i0 t d.duration hdur i o hi ho

theorem applyLoopOps_duration (ops : List LoopOp) (d : DeckState) :
    (applyLoopOps d ops).duration = d.duration := by
  induction ops generalizing d with
  | nil => rfl
  | cons op rest ih =>
      show (applyLoopOps (applyLoopOp d op) rest).duration = d.duration
      rw [ih (applyLoopOp d op), applyLoopOp_duration]

theorem applyLoopOps_invariant (ops : List LoopOp) (d : DeckState)
    (hdur : 0 ≤ d.duration) (hd : loopInvariant d) :
    loopInvariant (applyLoopOps d ops) := by
  induction ops generalizing d with
  | nil => exact hd
  | cons op rest ih =>
      have hdur2 : 0 ≤ (applyLoopOp d op).duration := by
        rw [applyLoopOp_duration]; exact hdur
      exact ih (applyLoopOp d op) hdur2 (applyLoopOp_invariant d op hdur)

/-- C3: the claimed invariant `loopOut ≥ loopIn + MIN_GAP` fails at the track
end: with `duration = 10`, calling `setLoopIn` then `setLoopOut` both at
`t = 10` leaves `loopIn = loopOut = 10`, because `normalizeLoop` clamps the
pushed-forward `loopOut` back to `duration`. -/
theorem loopInvariant_counterexample :
    (applyLoopOps { defaultDeckState with duration := 10 }
        [LoopOp.setIn 10, LoopOp.setOut 10]).loopIn = some 10 ∧
    (applyLoopOps { defaultDeckState with duration := 10 }
        [LoopOp.setIn 10, LoopOp.setOut 10]).loopOut = some 10 ∧
    ¬ ((10 : ℚ) + MIN_LOOP_GAP ≤ 10) := by
  refine ⟨?_, ?_, by norm_num [MIN_LOOP_GAP]⟩ <;>
    · simp only [applyLoopOps, List.foldl, applyLoopOp, setLoopInA, setLoopOutA,
        normalizeLoop, MIN_LOOP_GAP, defaultDeckState]
      norm_num

/-- C3 (amended): starting from a deck whose loop markers are both unset,
after any sequence of `setLoopIn`/`setLoopOut` calls, if both markers are set
then both lie in `[0, duration]` and
`loopOut ≥ min (loopIn + MIN_LOOP_GAP) duration` — the claimed
`loopOut ≥ loopIn + MIN_LOOP_GAP` holds except when the window is truncated
at the track end, where `loopOut = duration` instead. -/
theorem loop_window_invariant (d : DeckState) (ops : List LoopOp)
    (hdur : 0 ≤ d.duration) (hIn : d.loopIn = none) (hOut : d.loopOut = none)
    (i o : ℚ)
    (hi : (applyLoopOps d ops).loopIn = some i)
    (ho : (applyLoopOps d ops).loopOut = some o) :
    0 ≤ i ∧ i ≤ d.duration ∧ 0 ≤ o ∧ o ≤ d.duration ∧
      min (i + MIN_LOOP_GAP) d.duration ≤ o := by
  have hinv : loopInvariant d := by
    intro i o hi _
    rw [hIn] at hi
    exact absurd hi (by simp)
  have := applyLoopOps_invariant ops d hdur hinv i o hi ho
  rw [applyLoopOps_duration] at this
  exact this

/-- C3 witness: duration `10`, markers unset, then `setLoopIn 2` and
`setLoopOut 5` give the window `[2, 5]`, which satisfies the invariant. -/
theorem loop_window_invariant_witness :
    (0 : ℚ) ≤ ({ defaultDeckState with duration := 10 } : DeckState).duration ∧
    (0 ≤ (2 : ℚ) ∧ (2 : ℚ) ≤ 10 ∧ 0 ≤ (5 : ℚ) ∧ (5 : ℚ) ≤ 10 ∧
      min ((2 : ℚ) + MIN_LOOP_GAP) 10 ≤ 5) :=
  ⟨by norm_num,
    loop_window_invariant { defaultDeckState with duration := 10 }
      [LoopOp.setIn 2, LoopOp.setOut 5] (by norm_num) rfl rfl 2 5
      (by simp only [applyLoopOps, List.foldl, applyLoopOp, setLoopInA, setLoopOutA,
            normalizeLoop, MIN_LOOP_GAP, defaultDeckState]
          norm_num)
      (by simp only [applyLoopOps, List.foldl, applyLoopOp, setLoopInA, setLoopOutA,
            normalizeLoop, MIN_LOOP_GAP, defaultDeckState]
          norm_num)⟩

/-- The autonomous audio element as sampled by the state loop: playback
position, duration (`none` models a non-finite duration, mapped to `0` by the
`isFinite` check) and the paused flag. -/
structure AudioElementState where
  currentTime : ℚ
  duration : Option ℚ
  paused : Bool
deriving DecidableEq, Repr

/-- The recording-elapsed update inside a tick of
`AudioEngine.startStateLoop` (`(Date.now() - recordingStartTime) / 1000`,
published only when its integer second changed). -/
def recordingTick (nowMs recordingStartTime : ℚ) (s : AudioEngineState) : AudioEngineState :=
  if s.isRecording ∧ 0 < recordingStartTime then
    if Int.floor ((nowMs - recordingStartTime) / 1000) ≠ Int.floor s.recordingDuration then
      { s with recordingDuration := (nowMs - recordingStartTime) / 1000 }
    else s
  else s

/-- The loop-enforcement step inside a tick of `AudioEngine.startStateLoop`:
if the loop is enabled, both markers are set and the freshly sampled position
`newTime` has reached `loopOut`, the audio element position is written back
to `loopIn`. -/
def loopWrap (a : AudioElementState) (newTime : ℚ) (s : AudioEngineState) : AudioElementState :=
  if s.loopEnabled then
    match s.loopIn, s.loopOut with
    | some li, some lo => if lo ≤ newTime then { a with currentTime := li } else a
    | _, _ => a
  else a

/-- One tick of `AudioEngine.startStateLoop`: samples the audio element once,
republishes `currentTime`/`duration`/`isPlaying` (the `isFinite` fallback
maps a non-finite duration to `0`), updates the recording elapsed time, then
enforces the loop wrap-around on the freshly sampled position.  Returns the
audio element and the published state after the tick.  `nowMs` is the wall
clock and `recordingStartTime` the engine's private recording start stamp. -/
def stateLoopTick (a : AudioElementState) (nowMs recordingStartTime : ℚ)
    (s : AudioEngineState) : AudioElementState × AudioEngineState :=
  let newTime := a.currentTime
  let s1 := { s with
    currentTime := newTime
    duration := a.duration.getD 0
    isPlaying := !a.paused }
  let s2 := recordingTick nowMs recordingStartTime s1
  (loopWrap a newTime s2, s2)

theorem recordingTick_loop_fields (nowMs rst : ℚ) (s : AudioEngineState) :
    (recordingTick nowMs rst s).loopEnabled = s.loopEnabled ∧
    (recordingTick nowMs rst s).loopIn = s.loopIn ∧
    (recordingTick nowMs rst s).loopOut = s.loopOut ∧
    (recordingTick nowMs rst s).currentTime = s.currentTime := by
  unfold recordingTick
  split
  · split <;> exact ⟨rfl, rfl, rfl, rfl⟩
  · exact ⟨rfl, rfl, rfl, rfl⟩

/-- C4: on every tick of the state loop, if the loop is enabled, both markers
are set and the freshly sampled position has reached `loopOut`, the playback
position is written back to `loopIn` — for every audio-element state, wall
clock, recording stamp and engine state (i.e. regardless of what else changed
between ticks).  The published state always carries the fresh sample. -/
theorem stateLoopTick_loop_wrap (a : AudioElementState) (nowMs rst : ℚ)
    (s : AudioEngineState) (li lo : ℚ)
    (hen : s.loopEnabled = true) (hin : s.loopIn = some li)
    (hout : s.loopOut = some lo) (hpos : lo ≤ a.currentTime) :
    (stateLoopTick a nowMs rst s).1.currentTime = li ∧
    (stateLoopTick a nowMs rst s).2.currentTime = a.currentTime := by
  obtain ⟨r1, r2, r3, r4⟩ := recordingTick_loop_fields nowMs rst
    { s with currentTime := a.currentTime, duration := a.duration.getD 0, isPlaying := !a.paused }
  constructor
  · show (loopWrap a a.currentTime _).currentTime = li
    rw [loopWrap, r1, r2, r3]
    simp only [hen, hin, hout, if_true]
    rw [if_pos hpos]
  · show (recordingTick nowMs rst _).currentTime = a.currentTime
    rw [r4]

/-- C4 witness: the spec scenario — loop `[10, 12]` enabled, playback at
`12.1` seconds; the tick resets the element position to `10`. -/
theorem stateLoopTick_loop_wrap_witness :
    ({ initialEngineState with
        loopEnabled := true, loopIn := some 10, loopOut := some 12 } : AudioEngineState).loopEnabled = true ∧
    (12 : ℚ) ≤ (121 : ℚ) / 10 ∧
    ((stateLoopTick { currentTime := 121 / 10, duration := some 180, paused := false } 0 0
        { initialEngineState with
          loopEnabled := true, loopIn := some 10, loopOut := some 12 }).1.currentTime = 10 ∧
      (stateLoopTick { currentTime := 121 / 10, duration := some 180, paused := false } 0 0
        { initialEngineState with
          loopEnabled := true, loopIn := some 10, loopOut := some 12 }).2.currentTime = 121 / 10) :=
  ⟨rfl, by norm_num,
    stateLoopTick_loop_wrap
      { currentTime := 121 / 10, duration := some 180, paused := false } 0 0
      { initialEngineState with
        loopEnabled := true, loopIn := some 10, loopOut := some 12 }
      10 12 rfl rfl rfl (by norm_num)⟩

/-- Nodes of the per-deck Web Audio graph built by
`AudioEngine.buildAudioGraph`. -/
inductive GraphNode
  | source
  | eqFilter (i : Fin 8)
  | djFilter
  | echoDelay
  | echoFeedbackGain
  | echoMixGain
  | echoDryGain
  | preCompressorGain
  | compressor
  | masterGain
  | mediaStreamDest
  | destination
deriving DecidableEq, Repr

/-- Graph-topology state of the `AudioEngine` class: presence of the media
element / audio context, the built-flag, whether the processing nodes have
been created, the connection list, and the routing flags `connectGraph`
reads. -/
structure EngineGraph where
  hasAudioElement : Bool
  hasAudioContext : Bool
  graphBuilt : Bool
  webAudioConnected : Bool
  nodesCreated : Bool
  edges : List (GraphNode × GraphNode)
  isBypassed : Bool
  djBypass : Bool
  safeModeEnabled : Bool
deriving DecidableEq, Repr

/-- The EQ chain connections made in `buildAudioGraph`
(`filters[i].connect(filters[i+1])` for `i = 0..6`). -/
def eqChainEdges : List (GraphNode × GraphNode) :=
  (List.finRange 7).map fun i => (GraphNode.eqFilter i.castSucc, GraphNode.eqFilter i.succ)

/-- The nodes whose outgoing connections `connectGraph` drops before
rewiring (its block of `disconnect()` calls). -/
def disconnectedNodes : List GraphNode :=
  [GraphNode.source, GraphNode.eqFilter 7, GraphNode.djFilter, GraphNode.echoDryGain,
   GraphNode.echoDelay, GraphNode.echoMixGain, GraphNode.echoFeedbackGain,
   GraphNode.preCompressorGain, GraphNode.compressor, GraphNode.masterGain]

/-- Embedding of `AudioEngine.connectGraph`: a no-op when the nodes are
missing, otherwise disconnect-then-reconnect of the togglable routes
according to the bypass / safe-mode flags. -/
def connectGraph (g : EngineGraph) : EngineGraph :=
  if !g.nodesCreated then g
  else
    let kept := g.edges.filter fun e => !(disconnectedNodes.contains e.1)
    let eqRoute :=
      if g.isBypassed then [(GraphNode.source, GraphNode.djFilter)]
      else [(GraphNode.source, GraphNode.eqFilter 0), (GraphNode.eqFilter 7, GraphNode.djFilter)]
    let fxRoute :=
      if g.djBypass then [(GraphNode.djFilter, GraphNode.preCompressorGain)]
      else [(GraphNode.djFilter, GraphNode.echoDryGain), (GraphNode.djFilter, GraphNode.echoDelay),
        (GraphNode.echoDelay, GraphNode.echoMixGain), (GraphNode.echoDelay, GraphNode.echoFeedbackGain),
        (GraphNode.echoFeedbackGain, GraphNode.echoDelay), (GraphNode.echoDryGain, GraphNode.preCompressorGain),
        (GraphNode.echoMixGain, GraphNode.preCompressorGain)]
    let compRoute :=
      if g.safeModeEnabled then
        [(GraphNode.preCompressorGain, GraphNode.compressor), (GraphNode.compressor, GraphNode.masterGain)]
      else [(GraphNode.preCompressorGain, GraphNode.masterGain)]
    let outRoute := [(GraphNode.masterGain, GraphNode.destination),
      (GraphNode.masterGain, GraphNode.mediaStreamDest)]
    { g with edges := kept ++ eqRoute ++ fxRoute ++ compRoute ++ outRoute }

/-- Embedding of `AudioEngine.buildAudioGraph`: a no-op when the media
element or audio context is missing, a no-op when the built-flag is already
set, otherwise creates fresh nodes, chains the EQ filters, wires the graph
through `connectGraph` and sets the built-flag. -/
def buildAudioGraph (g : EngineGraph) : EngineGraph :=
  if !g.hasAudioElement || !g.hasAudioContext then g
  else if g.graphBuilt then g
  else
    let g1 := connectGraph { g with nodesCreated := true, edges := eqChainEdges }
    { g1 with graphBuilt := true, webAudioConnected := true }

theorem buildAudioGraph_built_or_noop (g : EngineGraph) :
    (buildAudioGraph g).graphBuilt = true ∨ buildAudioGraph g = g := by
  rw [buildAudioGraph]
  split
  · exact Or.inr rfl
  · split
    · rename_i hb
      exact Or.inl hb
    · exact Or.inl rfl

/-- C5: `buildAudioGraph` is idempotent — building twice yields exactly the
same graph state and connectivity as building once (the built-flag
short-circuits the second call, so no signal path is duplicated) — and it is
a no-op when the media element or the audio context does not exist yet. -/
theorem buildAudioGraph_idempotent (g : EngineGraph) :
    buildAudioGraph (buildAudioGraph g) = buildAudioGraph g ∧
    (g.hasAudioElement = false ∨ g.hasAudioContext = false → buildAudioGraph g = g) := by
  constructor
  · rcases buildAudioGraph_built_or_noop g with hb | hid
    · have key : ∀ q : EngineGraph, q.graphBuilt = true → buildAudioGraph q = q := by
        intro q hq
        simp only [buildAudioGraph, hq, if_true, ite_self]
      exact key (buildAudioGraph g) hb
    · rw [hid]
      exact hid
  · intro h
    rw [buildAudioGraph]
    rcases h with h | h <;> rw [if_pos] <;> simp [h]

/-- The graph-topology state before any media element or context exists
(the class's node fields start `null` and the flags `false`). -/
def initialEngineGraph : EngineGraph :=
  { hasAudioElement := false
    hasAudioContext := false
    graphBuilt := false
    webAudioConnected := false
    nodesCreated := false
    edges := []
    isBypassed := false
    djBypass := false
    safeModeEnabled := true }

/-- C5 witness: on the initial graph state (no audio element yet), building
twice equals building once, and building is a no-op. -/
theorem buildAudioGraph_idempotent_witness :
    buildAudioGraph (buildAudioGraph initialEngineGraph) = buildAudioGraph initialEngineGraph ∧
    initialEngineGraph.hasAudioElement = false ∧
    buildAudioGraph initialEngineGraph = initialEngineGraph :=
  ⟨(buildAudioGraph_idempotent initialEngineGraph).1, rfl,
    (buildAudioGraph_idempotent initialEngineGraph).2 (Or.inl rfl)⟩

/-- The per-parameter linear interpolation of a morph frame
(`start + (end - start) * eased` for each of the five parameters). -/
def lerpParams (startP endP : DJSceneParams) (eased : ℚ) : DJSceneParams :=
  { playbackRate := startP.playbackRate + (endP.playbackRate - startP.playbackRate) * eased
    djFilterValue := startP.djFilterValue + (endP.djFilterValue - startP.djFilterValue) * eased
    echoMix := startP.echoMix + (endP.echoMix - startP.echoMix) * eased
    echoTime := startP.echoTime + (endP.echoTime - startP.echoTime) * eased
    echoFeedback := startP.echoFeedback + (endP.echoFeedback - startP.echoFeedback) * eased }

/-- One animation frame of `AudioEngine.morphToScene`: with
`progress = min (elapsed / durationMs) 1` and the ease-out-cubic easing
`eased = 1 - (1 - progress)^3`, applies the interpolated parameters through
`applyDjParams` and publishes `morphProgress`; when `progress < 1` the
animation stays alive (the returned flag models `morphAnimationId` being
set), otherwise the frame completes the morph: `isMorphing := false`,
`activeDjScene := target` and the animation handle is cleared. -/
def morphFrame (startP endP : DJSceneParams) (target : SceneTag)
    (durationMs elapsed : ℚ) (s : AudioEngineState) : AudioEngineState × Bool :=
  if min (elapsed / durationMs) 1 < 1 then
    ({ applyDjParams (lerpParams startP endP (1 - (1 - min (elapsed / durationMs) 1) ^ 3)) s with
        morphProgress := min (elapsed / durationMs) 1 }, true)
  else
    ({ applyDjParams (lerpParams startP endP (1 - (1 - min (elapsed / durationMs) 1) ^ 3)) s with
        morphProgress := min (elapsed / durationMs) 1
        isMorphing := false
        activeDjScene := target }, false)

/-- Embedding of `AudioEngine.cancelMorph`: when an animation handle is live,
it is cancelled and `isMorphing` is cleared; the parameters are not touched.
The boolean is the animation handle after the call. -/
def cancelMorph (morphAnimActive : Bool) (s : AudioEngineState) : AudioEngineState × Bool :=
  if morphAnimActive then ({ s with isMorphing := false }, false)
  else (s, morphAnimActive)

theorem lerpParams_one (p q : DJSceneParams) : lerpParams p q 1 = q := by
  cases q
  simp only [lerpParams, DJSceneParams.mk.injEq]
  refine ⟨by ring, by ring, by ring, by ring, by ring⟩

/-- C6: a morph frame at `elapsed ≥ durationMs` (so eased progress `≥ 1`)
sets all five DJ parameters exactly to the target scene's stored values, sets
`activeDjScene` to the target, clears `isMorphing` and the animation handle;
and `cancelMorph` mid-flight leaves the five parameters exactly as they were
(no snap to either endpoint) while clearing `isMorphing`. -/
theorem morphFrame_completion_cancel (startP endP : DJSceneParams) (target : SceneTag)
    (durationMs elapsed : ℚ) (s s2 : AudioEngineState)
    (hdur : 0 < durationMs) (he : durationMs ≤ elapsed) :
    getCurrentDjParams (morphFrame startP endP target durationMs elapsed s).1 = endP ∧
    (morphFrame startP endP target durationMs elapsed s).1.activeDjScene = target ∧
    (morphFrame startP endP target durationMs elapsed s).1.isMorphing = false ∧
    (morphFrame startP endP target durationMs elapsed s).2 = false ∧
    getCurrentDjParams (cancelMorph true s2).1 = getCurrentDjParams s2 ∧
    (cancelMorph true s2).1.isMorphing = false := by
  have hp : min (elapsed / durationMs) 1 = 1 := by
    refine min_eq_right ?_
    rw [le_div_iff₀ hdur]
    linarith
  have heased : (1 : ℚ) - (1 - min (elapsed / durationMs) 1) ^ 3 = 1 := by
    rw [hp]; norm_num
  have hfr : morphFrame startP endP target durationMs elapsed s =
      ({ applyDjParams endP s with
          morphProgress := 1, isMorphing := false, activeDjScene := target }, false) := by
    rw [morphFrame, heased, lerpParams_one, hp]
    rw [if_neg (lt_irrefl 1)]
  rw [hfr]
  exact ⟨getCurrentDjParams_applyDjParams endP s, rfl, rfl, rfl, rfl, rfl⟩

/-- C6 witness: morphing the initial state to the stored scene B over 600 ms,
sampled at 600 ms, with the `Club Echo` parameters as the target snapshot. -/
theorem morphFrame_completion_cancel_witness :
    (0 : ℚ) < 600 ∧ (600 : ℚ) ≤ 600 ∧
    (getCurrentDjParams (morphFrame DEFAULT_DJ_SCENE
        { playbackRate := 1, djFilterValue := 0, echoMix := 7 / 20, echoTime := 1 / 4, echoFeedback := 9 / 20 }
        SceneTag.B 600 600 initialEngineState).1 =
      { playbackRate := 1, djFilterValue := 0, echoMix := 7 / 20, echoTime := 1 / 4, echoFeedback := 9 / 20 } ∧
      (morphFrame DEFAULT_DJ_SCENE
        { playbackRate := 1, djFilterValue := 0, echoMix := 7 / 20, echoTime := 1 / 4, echoFeedback := 9 / 20 }
        SceneTag.B 600 600 initialEngineState).1.activeDjScene = SceneTag.B ∧
      (morphFrame DEFAULT_DJ_SCENE
        { playbackRate := 1, djFilterValue := 0, echoMix := 7 / 20, echoTime := 1 / 4, echoFeedback := 9 / 20 }
        SceneTag.B 600 600 initialEngineState).1.isMorphing = false ∧
      (morphFrame DEFAULT_DJ_SCENE
        { playbackRate := 1, djFilterValue := 0, echoMix := 7 / 20, echoTime := 1 / 4, echoFeedback := 9 / 20 }
        SceneTag.B 600 600 initialEngineState).2 = false ∧
      getCurrentDjParams (cancelMorph true initialEngineState).1 = getCurrentDjParams initialEngineState ∧
      (cancelMorph true initialEngineState).1.isMorphing = false) :=
  ⟨by norm_num, by norm_num,
    morphFrame_completion_cancel DEFAULT_DJ_SCENE
      { playbackRate := 1, djFilterValue := 0, echoMix := 7 / 20, echoTime := 1 / 4, echoFeedback := 9 / 20 }
      SceneTag.B 600 600 initialEngineState initialEngineState (by norm_num) (by norm_num)⟩

/-- Embedding of the provider's crossfader write
(`deckGainA.gain.value = Math.cos(x * Math.PI * 0.5)` and
`deckGainB.gain.value = Math.sin(x * Math.PI * 0.5)`). -/
noncomputable def crossfadeLaw (x : ℝ) : ℝ × ℝ :=
  (Real.cos (x * Real.pi * (1 / 2)), Real.sin (x * Real.pi * (1 / 2)))

/-- C2: the crossfader applies the equal-power law: for positions in `[0,1]`
the two deck gains satisfy `gainA^2 + gainB^2 = 1`, `gainA` is monotonically
decreasing and `gainB` monotonically increasing in the position, and the
endpoints give `(1, 0)` and `(0, 1)`. -/
theorem crossfadeLaw_equal_power (x y : ℝ) (hx0 : 0 ≤ x) (hx1 : x ≤ 1)
    (hy0 : 0 ≤ y) (hy1 : y ≤ 1) (hxy : x ≤ y) :
    (crossfadeLaw x).1 ^ 2 + (crossfadeLaw x).2 ^ 2 = 1 ∧
    (crossfadeLaw y).1 ≤ (crossfadeLaw x).1 ∧
    (crossfadeLaw x).2 ≤ (crossfadeLaw y).2 ∧
    crossfadeLaw 0 = (1, 0) ∧
    crossfadeLaw 1 = (0, 1) := by
  have hpi : (0 : ℝ) < Real.pi := Real.pi_pos
  have hx2 : 0 ≤ x * Real.pi * (1 / 2) := by positivity
  have hy2 : 0 ≤ y * Real.pi * (1 / 2) := by positivity
  have hxle : x * Real.pi * (1 / 2) ≤ Real.pi / 2 := by nlinarith
  have hyle : y * Real.pi * (1 / 2) ≤ Real.pi / 2 := by nlinarith
  have hmono : x * Real.pi * (1 / 2) ≤ y * Real.pi * (1 / 2) := by nlinarith
  refine ⟨?_, ?_, ?_, ?_, ?_⟩
  · exact Real.cos_sq_add_sin_sq _
  · exact Real.cos_le_cos_of_nonneg_of_le_pi hx2
      (le_trans hyle (by linarith)) hmono
  · exact Real.sin_le_sin_of_le_of_le_pi_div_two
      (le_trans (by linarith) hx2) hyle hmono
  · simp [crossfadeLaw]
  · have harg : (1 : ℝ) * Real.pi * (1 / 2) = Real.pi / 2 := by ring
    simp only [crossfadeLaw, harg, Real.cos_pi_div_two, Real.sin_pi_div_two]

/-- C2 witness: the endpoints `x = 0`, `y = 1`. -/
theorem crossfadeLaw_equal_power_witness :
    (0 : ℝ) ≤ 0 ∧ (0 : ℝ) ≤ 1 ∧
    ((crossfadeLaw 0).1 ^ 2 + (crossfadeLaw 0).2 ^ 2 = 1 ∧
      (crossfadeLaw 1).1 ≤ (crossfadeLaw 0).1 ∧
      (crossfadeLaw 0).2 ≤ (crossfadeLaw 1).2 ∧
      crossfadeLaw 0 = (1, 0) ∧
      crossfadeLaw 1 = (0, 1)) :=
  ⟨le_refl 0, zero_le_one,
    crossfadeLaw_equal_power 0 1 (le_refl 0) zero_le_one zero_le_one (le_refl 1) zero_le_one⟩

/-- The DJ-filter node write of `AudioEngine.setDjFilterValue`: kind and
cutoff frequency as a function of the control value.  `value = 0` resets to a
wide-open lowpass; `value < 0` sweeps a lowpass along
`200 * 100 ^ ((value + 100) / 100)` clamped to `20000`; `value > 0` sweeps a
highpass along `20 * 400 ^ (value / 100)` clamped to `8000`. -/
noncomputable def setDjFilterFreq (value : ℚ) : FilterKind × ℝ :=
  if value = 0 then (FilterKind.lowpass, 20000)
  else if value < 0 then
    (FilterKind.lowpass, min (200 * (100 : ℝ) ^ (((value : ℝ) + 100) / 100)) 20000)
  else
    (FilterKind.highpass, min (20 * (400 : ℝ) ^ ((value : ℝ) / 100)) 8000)

/-- Modelled from the spec's `filterMapping` law (spec section 4.1), for the
refinement comparison: lowpass at 20000 Hz at zero, lowpass
`200 * 100 ^ ((value + 100) / 100)` clamped to 20000 Hz below zero, highpass
`20 * 400 ^ (value / 100)` clamped to 8000 Hz above zero. -/
noncomputable def filterMappingSpec (value : ℚ) : FilterKind × ℝ :=
  if value = 0 then (FilterKind.lowpass, 20000)
  else if value < 0 then
    (FilterKind.lowpass, min (200 * (100 : ℝ) ^ (((value : ℝ) + 100) / 100)) 20000)
  else
    (FilterKind.highpass, min (20 * (400 : ℝ) ^ ((value : ℝ) / 100)) 8000)

/-- The DJ-filter node write of the provider's `filterMacro` effect: this
variant sweeps linearly — lowpass `200 + ((value + 100) / 100) * 19800`,
highpass `20 + (value / 100) * 2000`. -/
def filterMacroUpdate (value : ℚ) : FilterKind × ℚ :=
  if value = 0 then (FilterKind.lowpass, 20000)
  else if value < 0 then (FilterKind.lowpass, 200 + ((value + 100) / 100) * 19800)
  else (FilterKind.highpass, 20 + (value / 100) * 2000)

/-- C1: the claim's mapping law fails on the provider's `filterMacro` effect
(one of its two cited sources): at control value `100` that code sets a
highpass at `2020` Hz, not the claimed
`min (20 * 400 ^ (100 / 100)) 8000 = 8000` Hz. -/
theorem filterMapping_counterexample :
    (filterMacroUpdate 100).1 = FilterKind.highpass ∧
    (filterMacroUpdate 100).2 = 2020 ∧
    (filterMappingSpec 100).2 = 8000 ∧
    ((filterMacroUpdate 100).2 : ℝ) ≠ (filterMappingSpec 100).2 := by
  have hup : filterMacroUpdate 100 = (FilterKind.highpass, 2020) := by
    rw [filterMacroUpdate, if_neg (by norm_num), if_neg (by norm_num)]
    norm_num
  have hexp : (((100 : ℚ) : ℝ)) / 100 = 1 := by push_cast; norm_num
  have hspec : (filterMappingSpec 100).2 = 8000 := by
    rw [filterMappingSpec, if_neg (by norm_num), if_neg (by norm_num)]
    simp only [hexp, Real.rpow_one]
    norm_num
  refine ⟨by rw [hup], by rw [hup], hspec, ?_⟩
  rw [hup, hspec]
  norm_num

/-- C1 (amended): the claimed law holds exactly for the `AudioEngine` class
mapping `setDjFilterValue` (it coincides with the spec's `filterMapping` on
all of `[-100, 100]`, with lowpass 20000 Hz at `0`, lowpass 200 Hz at `-100`,
highpass 8000 Hz at `100`, and the cutoff never exceeding the claimed
ceilings); the provider's `filterMacro` effect instead sweeps linearly (see
the counterexample). -/
theorem djFilterValue_mapping (value : ℚ) (hlo : -100 ≤ value) (hhi : value ≤ 100) :
    setDjFilterFreq value = filterMappingSpec value ∧
    (value = 0 → setDjFilterFreq value = (FilterKind.lowpass, 20000)) ∧
    (value < 0 → (setDjFilterFreq value).1 = FilterKind.lowpass ∧
      (setDjFilterFreq value).2 = min (200 * (100 : ℝ) ^ (((value : ℝ) + 100) / 100)) 20000) ∧
    (0 < value → (setDjFilterFreq value).1 = FilterKind.highpass ∧
      (setDjFilterFreq value).2 = min (20 * (400 : ℝ) ^ ((value : ℝ) / 100)) 8000 ∧
      (setDjFilterFreq value).2 ≤ 8000) ∧
    (setDjFilterFreq value).2 ≤ 20000 ∧
    setDjFilterFreq (-100) = (FilterKind.lowpass, 200) ∧
    setDjFilterFreq 100 = (FilterKind.highpass, 8000) := by
  have hneg : ∀ v : ℚ, v < 0 →
      setDjFilterFreq v =
        (FilterKind.lowpass, min (200 * (100 : ℝ) ^ (((v : ℝ) + 100) / 100)) 20000) := by
    intro v hv
    rw [setDjFilterFreq, if_neg (ne_of_lt hv), if_pos hv]
  have hposi : ∀ v : ℚ, 0 < v →
      setDjFilterFreq v =
        (FilterKind.highpass, min (20 * (400 : ℝ) ^ ((v : ℝ) / 100)) 8000) := by
    intro v hv
    rw [setDjFilterFreq, if_neg (ne_of_gt hv), if_neg (not_lt_of_gt hv)]
  have hminus100 : setDjFilterFreq (-100) = (FilterKind.lowpass, 200) := by
    rw [hneg (-100) (by norm_num)]
    have e : (((-100 : ℚ) : ℝ) + 100) / 100 = 0 := by push_cast; norm_num
    rw [e, Real.rpow_zero, mul_one]
    rw [min_eq_left (by norm_num)]
  have hplus100 : setDjFilterFreq 100 = (FilterKind.highpass, 8000) := by
    rw [hposi 100 (by norm_num)]
    have e : ((100 : ℚ) : ℝ) / 100 = 1 := by push_cast; norm_num
    rw [e, Real.rpow_one]
    norm_num
  refine ⟨rfl, ?_, ?_, ?_, ?_, hminus100, hplus100⟩
  · intro h
    rw [setDjFilterFreq, if_pos h]
  · intro h
    rw [hneg value h]
    exact ⟨rfl, rfl⟩
  · intro h
    rw [hposi value h]
    exact ⟨rfl, rfl, min_le_right _ _⟩
  · rcases lt_trichotomy value 0 with h | h | h
    · rw [hneg value h]
      exact min_le_right _ _
    · rw [setDjFilterFreq, if_pos h]
    · rw [hposi value h]
      exact le_trans (min_le_right _ _) (by norm_num)

/-- C1 witness: the amended mapping law instantiated at the control value
`-100` (the lowpass end of the sweep). -/
theorem djFilterValue_mapping_witness :
    (-100 : ℚ) ≤ -100 ∧ (-100 : ℚ) ≤ 100 ∧
    (setDjFilterFreq (-100) = filterMappingSpec (-100) ∧
      ((-100 : ℚ) = 0 → setDjFilterFreq (-100) = (FilterKind.lowpass, 20000)) ∧
      ((-100 : ℚ) < 0 → (setDjFilterFreq (-100)).1 = FilterKind.lowpass ∧
        (setDjFilterFreq (-100)).2 =
          min (200 * (100 : ℝ) ^ ((((-100 : ℚ) : ℝ) + 100) / 100)) 20000) ∧
      ((0 : ℚ) < -100 → (setDjFilterFreq (-100)).1 = FilterKind.highpass ∧
        (setDjFilterFreq (-100)).2 =
          min (20 * (400 : ℝ) ^ (((-100 : ℚ) : ℝ) / 100)) 8000 ∧
        (setDjFilterFreq (-100)).2 ≤ 8000) ∧
      (setDjFilterFreq (-100)).2 ≤ 20000 ∧
      setDjFilterFreq (-100) = (FilterKind.lowpass, 200) ∧
      setDjFilterFreq 100 = (FilterKind.highpass, 8000)) :=
  ⟨le_refl _, by norm_num,
    djFilterValue_mapping (-100) (le_refl _) (by norm_num)⟩

end SolidEQ
